import Mathlib

/-!
# LeapMotionMamuLEDs-Pd: frame-to-message encoding

A shallow embedding of `SampleListener::onFrame` and `SampleListener::getHandInfo`
from `LeapMotionMamuLEDs-Pd.cpp`, and theorems about the message the listener
writes to its TCP socket for each Leap Motion frame.

Conventions of the embedding:

* `float` values are elements of an arbitrary linearly ordered field `α`
  (exact arithmetic: `ℚ` for evaluation, `ℝ` for the ideal reading);
* the parts of the Leap SDK and of the C++ standard library that the program
  calls but does not define (`Leap::PI`, `Leap::RAD_TO_DEG`, `Vector::pitch`,
  `Vector::yaw`, `Vector::roll`, and the stream insertion of a `float`) are the
  fields of a parameter record `LeapSdk`;
* `boost::asio::write` is a parameter `write` taking the socket state and the
  payload and returning the new socket state with the reported error, if any;
* a `std::stringstream` is the `String` of what was inserted into it, and the
  effects of a call are returned as a list of `Event`s in program order.
-/

namespace LeapMotionMamuLEDs

/-! ## Data model (the part of `Leap.h` the program reads) -/

/-- Value of type `Leap::Vector`: three `float` coordinates. -/
structure Vector (α : Type) where
  x : α
  y : α
  z : α
deriving DecidableEq, Repr

/-- Value of type `Leap::Bone`, reduced to the one attribute the program reads. -/
structure Bone (α : Type) where
  direction : Vector α
deriving DecidableEq, Repr

/-- Value of type `Leap::Finger`: its four bones, indexed by `Bone::Type`
(`0` metacarpal, `1` proximal, `2` intermediate, `3` distal). -/
structure Finger (α : Type) where
  metacarpal : Bone α
  proximal : Bone α
  intermediate : Bone α
  distal : Bone α
deriving DecidableEq, Repr

/-- Value of type `Leap::Hand`, reduced to the attributes the program (and
`HandList::leftmost` / `HandList::rightmost`) read. -/
structure Hand (α : Type) where
  isLeft : Bool
  palmNormal : Vector α
  direction : Vector α
  palmPosition : Vector α
  wristPosition : Vector α
  fingers : List (Finger α)
deriving DecidableEq, Repr

/-- Value of type `Leap::Frame`, reduced to its hand list. -/
structure Frame (α : Type) where
  hands : List (Hand α)
deriving DecidableEq, Repr

/-- The zero vector, the direction of an invalid `Bone`. -/
def Vector.zero {α : Type} [Zero α] : Vector α := ⟨0, 0, 0⟩

/-- The invalid `Bone` the SDK returns for a bone type out of range. -/
def Bone.invalid {α : Type} [Zero α] : Bone α := ⟨Vector.zero⟩

/-- The invalid `Finger` the SDK returns for an index out of range. -/
def Finger.invalid {α : Type} [Zero α] : Finger α :=
  ⟨Bone.invalid, Bone.invalid, Bone.invalid, Bone.invalid⟩

/-- The invalid `Hand` the SDK returns when a hand is asked of an empty list. -/
def Hand.invalid {α : Type} [Zero α] : Hand α :=
  ⟨false, Vector.zero, Vector.zero, Vector.zero, Vector.zero, []⟩

/-- The call `finger.bone(static_cast<Bone::Type>(type))`. -/
def Finger.bone {α : Type} [Zero α] (f : Finger α) (type : Nat) : Bone α :=
  match type with
  | 0 => f.metacarpal
  | 1 => f.proximal
  | 2 => f.intermediate
  | 3 => f.distal
  | _ => Bone.invalid

/-- The indexing `fingers[i]` of a `FingerList`. -/
def fingerAt {α : Type} [Zero α] (fingers : List (Finger α)) (i : Nat) : Finger α :=
  fingers.getD i Finger.invalid

/-- What the program uses of the Leap SDK headers and of `<iostream>` without
defining it: the constants `Leap::PI` and `Leap::RAD_TO_DEG`, the three angle
functions of `Leap::Vector`, and `shows`, the text that `operator<<` writes for
a `float`. -/
structure LeapSdk (α : Type) where
  PI : α
  RAD_TO_DEG : α
  pitch : Vector α → α
  yaw : Vector α → α
  roll : Vector α → α
  shows : α → String

/-- Modelled from the spec: `HandList::leftmost()` is a function of the Leap
SDK, absent from the sources; the hand of minimum horizontal (x) palm position,
the first such hand in list order, and the invalid hand for an empty list. -/
def leftmost {α : Type} [LinearOrderedField α] (hands : List (Hand α)) : Hand α :=
  match hands with
  | [] => Hand.invalid
  | h :: t => t.foldl (fun best c => if c.palmPosition.x < best.palmPosition.x then c else best) h

/-- Modelled from the spec: `HandList::rightmost()` is a function of the Leap
SDK, absent from the sources; the hand of maximum horizontal (x) palm position,
the first such hand in list order, and the invalid hand for an empty list. -/
def rightmost {α : Type} [LinearOrderedField α] (hands : List (Hand α)) : Hand α :=
  match hands with
  | [] => Hand.invalid
  | h :: t => t.foldl (fun best c => if best.palmPosition.x < c.palmPosition.x then c else best) h

/-! ## Program state and effects -/

/-- The data members of `class SampleListener`: the socket (of an abstract
state type `σ`) and the frame counter. -/
structure SampleListener (σ : Type) where
  socket_ : σ
  framesCount : Int

/-- An observable effect of a callback: a line sent to `std::cout` (with
`std::endl`), or a call of `boost::asio::write` on `socket_` with a payload. -/
inductive Event where
  | cout (line : String)
  | write (payload : String)
deriving DecidableEq, Repr

/-- The payloads of the socket writes among a list of events, in order. -/
def written : List Event → List String
  | [] => []
  | Event.write p :: es => p :: written es
  | Event.cout _ :: es => written es

/-- The literal group `onFrame` inserts for the absent second hand. -/
def placeholder : String := " 555 0 0 0 0 0 0 0 0 0"

/-! ## `SampleListener::getHandInfo` -/

/-- The function `SampleListener::getHandInfo(hand, handInfoToPd)`: the first
component is the text inserted into `handInfoToPd`, the second the lines
printed on `std::cout`. -/
def getHandInfo {α : Type} [LinearOrderedField α] (sdk : LeapSdk α) (hand : Hand α) :
    String × List String :=
  let normal := hand.palmNormal
  let direction := hand.direction
  let handInfoToPd := if hand.isLeft then " 1" else " 0"
  let out :=
    [ "Hand direction: " ++ "pitch: " ++ sdk.shows (sdk.pitch direction * sdk.RAD_TO_DEG)
        ++ " degrees, ",
      "roll: " ++ sdk.shows (sdk.roll normal * sdk.RAD_TO_DEG) ++ " degrees, ",
      "yaw: " ++ sdk.shows (sdk.yaw direction * sdk.RAD_TO_DEG) ++ " degrees" ]
  let fingers := hand.fingers
  if fingers.length > 4 then
    let handInfoToPd := handInfoToPd
      ++ " " ++ sdk.shows (sdk.pitch direction * sdk.RAD_TO_DEG)
      ++ " " ++ sdk.shows (sdk.roll normal * sdk.RAD_TO_DEG)
      ++ " " ++ sdk.shows (sdk.yaw direction * sdk.RAD_TO_DEG)
    let thumbBone2Dir := ((fingerAt fingers 0).bone 3).direction
    let indexBone2Dir := ((fingerAt fingers 1).bone 2).direction
    let middleBone2Dir := ((fingerAt fingers 2).bone 2).direction
    let thumbZ := (sdk.PI / 2 + sdk.yaw thumbBone2Dir - sdk.yaw direction) * sdk.RAD_TO_DEG
    let indexX := (sdk.PI + sdk.pitch direction - sdk.pitch indexBone2Dir) * sdk.RAD_TO_DEG
    let middleX := (sdk.PI + sdk.pitch middleBone2Dir - sdk.pitch direction) * sdk.RAD_TO_DEG
    let handInfoToPd := handInfoToPd
      ++ " " ++ sdk.shows thumbZ ++ " " ++ sdk.shows indexX ++ " " ++ sdk.shows middleX
    let handInfoToPd := handInfoToPd
      ++ " " ++ sdk.shows (hand.wristPosition.x / 100)
      ++ " " ++ sdk.shows (-hand.wristPosition.z / 100)
      ++ " " ++ sdk.shows (-hand.wristPosition.y / 100)
    let out := out ++
      [ "thumb: " ++ sdk.shows thumbZ,
        "index: " ++ sdk.shows indexX,
        "middle: " ++ sdk.shows middleX ]
    (handInfoToPd, out)
  else
    (handInfoToPd, out)

/-! ## `SampleListener::onFrame` -/

/-- The callback `SampleListener::onFrame`, for the frame `controller.frame()`
returns: the listener after the call and the events of the call. `write` stands
for `boost::asio::write(socket_, buffer, err)`: it returns the socket after the
call and `some message` when `err` is set. -/
def onFrame {α σ : Type} [LinearOrderedField α] (sdk : LeapSdk α)
    (write : σ → String → σ × Option String)
    (self : SampleListener σ) (frame : Frame α) : SampleListener σ × List Event :=
  let hands := frame.hands
  if hands.length > 0 then
    let msgToPd := " " ++ toString frame.hands.length
    let out := [Event.cout ("Num of hands: " ++ toString frame.hands.length)]
    let leftMostHand := leftmost frame.hands
    let leftMostHandInfo := getHandInfo sdk leftMostHand
    let out := out ++ leftMostHandInfo.2.map Event.cout
    let rightMostHand := rightmost frame.hands
    let body : String × List Event :=
      if hands.length > 1 then
        if leftMostHand.isLeft then
          let rightMostHandInfo := getHandInfo sdk rightMostHand
          (msgToPd ++ leftMostHandInfo.1 ++ rightMostHandInfo.1,
            out ++ rightMostHandInfo.2.map Event.cout)
        else
          let rightMostHandInfo := getHandInfo sdk rightMostHand
          (msgToPd ++ rightMostHandInfo.1 ++ leftMostHandInfo.1,
            out ++ rightMostHandInfo.2.map Event.cout)
      else
        if leftMostHand.isLeft then
          (msgToPd ++ leftMostHandInfo.1 ++ " 555 0 0 0 0 0 0 0 0 0", out)
        else
          (msgToPd ++ " 555 0 0 0 0 0 0 0 0 0" ++ leftMostHandInfo.1, out)
    let msgToPd := body.1 ++ ";"
    let out := body.2
    let sent := write self.socket_ msgToPd
    let out := out ++ [Event.write msgToPd]
    match sent.2 with
    | some message => ({ self with socket_ := sent.1 }, out ++ [Event.cout message])
    | none => ({ self with socket_ := sent.1 }, out)
  else
    (self, [])

/-! ## Derived definitions used to state and prove the theorems -/

/-- The text of `msgToPd` when `onFrame` reaches the call of `write` (lines 78
to 118 of the source), for a frame with at least one hand; `onFrame_shape`
proves that this is what `onFrame` writes. -/
def message {α : Type} [LinearOrderedField α] (sdk : LeapSdk α) (frame : Frame α) : String :=
  (if frame.hands.length > 1 then
    (if (leftmost frame.hands).isLeft then
      " " ++ toString frame.hands.length ++ (getHandInfo sdk (leftmost frame.hands)).1
        ++ (getHandInfo sdk (rightmost frame.hands)).1
    else
      " " ++ toString frame.hands.length ++ (getHandInfo sdk (rightmost frame.hands)).1
        ++ (getHandInfo sdk (leftmost frame.hands)).1)
  else
    (if (leftmost frame.hands).isLeft then
      " " ++ toString frame.hands.length ++ (getHandInfo sdk (leftmost frame.hands)).1
        ++ " 555 0 0 0 0 0 0 0 0 0"
    else
      " " ++ toString frame.hands.length ++ " 555 0 0 0 0 0 0 0 0 0"
        ++ (getHandInfo sdk (leftmost frame.hands)).1)) ++ ";"

/-- The nine numbers `getHandInfo` inserts after the flag for a hand with more
than four fingers (lines 148 to 166 of the source), in the order of insertion. -/
def numericFields {α : Type} [LinearOrderedField α] (sdk : LeapSdk α) (hand : Hand α) : List α :=
  [ sdk.pitch hand.direction * sdk.RAD_TO_DEG,
    sdk.roll hand.palmNormal * sdk.RAD_TO_DEG,
    sdk.yaw hand.direction * sdk.RAD_TO_DEG,
    (sdk.PI / 2 + sdk.yaw ((fingerAt hand.fingers 0).bone 3).direction
      - sdk.yaw hand.direction) * sdk.RAD_TO_DEG,
    (sdk.PI + sdk.pitch hand.direction
      - sdk.pitch ((fingerAt hand.fingers 1).bone 2).direction) * sdk.RAD_TO_DEG,
    (sdk.PI + sdk.pitch ((fingerAt hand.fingers 2).bone 2).direction
      - sdk.pitch hand.direction) * sdk.RAD_TO_DEG,
    hand.wristPosition.x / 100,
    -hand.wristPosition.z / 100,
    -hand.wristPosition.y / 100 ]

/-- Number of positions of a text at which the pattern `pat` occurs as a
contiguous run of characters. -/
def occurrences (pat : List Char) : List Char → Nat
  | [] => 0
  | c :: cs => (if pat.isPrefixOf (c :: cs) then 1 else 0) + occurrences pat cs

/-- Text of a sequence of fields, each preceded by one space. -/
def fieldsText : List String → String
  | [] => ""
  | f :: fs => " " ++ f ++ fieldsText fs

/-! ## Concrete inputs used to evaluate the definitions -/

/-- A stand-in SDK over `ℚ` for evaluation: `PI` is `3`, `RAD_TO_DEG` is
`180 / 3`, the angle functions read one coordinate each, and a number is shown
as `"0"` when it is zero and as `"x"` otherwise. -/
def demoSdk : LeapSdk ℚ where
  PI := 3
  RAD_TO_DEG := 60
  pitch := fun v => v.y
  yaw := fun v => v.x
  roll := fun v => v.z
  shows := fun q => if q = 0 then "0" else "x"

/-- A transport whose every write fails with "Broken pipe" and leaves the
socket state (a `Bool`) as it was. -/
def failingWrite : Bool → String → Bool × Option String :=
  fun s _ => (s, some "Broken pipe")

/-- A listener whose socket state is `true`. -/
def demoListener : SampleListener Bool := ⟨true, 0⟩

/-- The zero vector over `ℚ`. -/
def zeroVec : Vector ℚ := ⟨0, 0, 0⟩

/-- A finger whose bones all point along the zero vector. -/
def zeroFinger : Finger ℚ := ⟨⟨zeroVec⟩, ⟨zeroVec⟩, ⟨zeroVec⟩, ⟨zeroVec⟩⟩

/-- A left hand with three fingers, at palm position `x = 1`. -/
def degradedLeftHand : Hand ℚ :=
  ⟨true, zeroVec, zeroVec, ⟨1, 0, 0⟩, zeroVec, [zeroFinger, zeroFinger, zeroFinger]⟩

/-- A right hand with five fingers at the origin, whose thumb, index and middle
bones are turned so that, with `demoSdk`, all nine numeric fields are zero. -/
def scenarioBHand : Hand ℚ :=
  ⟨false, zeroVec, zeroVec, zeroVec, zeroVec,
    [ ⟨⟨zeroVec⟩, ⟨zeroVec⟩, ⟨zeroVec⟩, ⟨⟨-3/2, 0, 0⟩⟩⟩,
      ⟨⟨zeroVec⟩, ⟨zeroVec⟩, ⟨⟨0, 3, 0⟩⟩, ⟨zeroVec⟩⟩,
      ⟨⟨zeroVec⟩, ⟨zeroVec⟩, ⟨⟨0, -3, 0⟩⟩, ⟨zeroVec⟩⟩,
      zeroFinger, zeroFinger ]⟩

/-- A right hand with three fingers, at palm position `x = 3`. -/
def degradedRightHand : Hand ℚ :=
  ⟨false, zeroVec, zeroVec, ⟨3, 0, 0⟩, zeroVec, [zeroFinger, zeroFinger, zeroFinger]⟩

/-- A left hand with five fingers, at palm position `x = 2`. -/
def resolvedLeftHand : Hand ℚ :=
  ⟨true, zeroVec, zeroVec, ⟨2, 0, 0⟩, zeroVec,
    [zeroFinger, zeroFinger, zeroFinger, zeroFinger, zeroFinger]⟩

/-! ## Auxiliary facts -/

section aux
variable {α σ : Type} [LinearOrderedField α]

/-- The writes of two runs of events are those of the first, then those of the
second. -/
theorem written_append (xs ys : List Event) : written (xs ++ ys) = written xs ++ written ys := by
  induction xs with
  | nil => rfl
  | cons e es ih => cases e <;> simp [written, ih]

/-- Lines printed on `std::cout` are not socket writes. -/
theorem written_map_cout (ls : List String) : written (ls.map Event.cout) = [] := by
  induction ls with
  | nil => rfl
  | cons l ls ih => simpa [written] using ih

/-- Shape of a call of `onFrame` on a frame with at least one hand: diagnostics,
one write of `message`, and the error text when the write reports one. -/
theorem onFrame_shape (sdk : LeapSdk α) (write : σ → String → σ × Option String)
    (self : SampleListener σ) (frame : Frame α) (hne : frame.hands ≠ []) :
    ∃ pre : List Event, written pre = [] ∧
      onFrame sdk write self frame =
        ({ self with socket_ := (write self.socket_ (message sdk frame)).1 },
          pre ++ Event.write (message sdk frame) ::
            (match (write self.socket_ (message sdk frame)).2 with
             | some m => [Event.cout m]
             | none => [])) := by
  have hpos : frame.hands.length > 0 := List.length_pos.mpr hne
  unfold onFrame message
  simp only [hpos, if_true]
  by_cases h1 : frame.hands.length > 1 <;> cases hL : (leftmost frame.hands).isLeft
  all_goals simp only [h1, if_true, if_false, Bool.false_eq_true]
  all_goals generalize write self.socket_ _ = res
  all_goals rcases res with ⟨sock, _ | m⟩
  all_goals refine ⟨[Event.cout ("Num of hands: " ++ toString frame.hands.length)]
      ++ List.map Event.cout (getHandInfo sdk (leftmost frame.hands)).2
      ++ (if frame.hands.length > 1 then
            List.map Event.cout (getHandInfo sdk (rightmost frame.hands)).2 else []), ?_, ?_⟩
  all_goals simp [h1, written_append, written_map_cout, written]

/-- The one socket write of `onFrame` on a frame with at least one hand. -/
theorem written_onFrame (sdk : LeapSdk α) (write : σ → String → σ × Option String)
    (self : SampleListener σ) (frame : Frame α) (hne : frame.hands ≠ []) :
    written (onFrame sdk write self frame).2 = [message sdk frame] := by
  obtain ⟨pre, hpre, heq⟩ := onFrame_shape sdk write self frame hne
  rw [heq]
  cases (write self.socket_ (message sdk frame)).2 <;>
    simp [written_append, hpre, written]

/-- On a hand with at most four fingers `getHandInfo` writes the flag only. -/
theorem getHandInfo_degraded (sdk : LeapSdk α) (hand : Hand α) (h : hand.fingers.length ≤ 4) :
    (getHandInfo sdk hand).1 = (if hand.isLeft then " 1" else " 0") := by
  have h4 : ¬ hand.fingers.length > 4 := Nat.not_lt.mpr h
  simp only [getHandInfo, h4, if_false]

/-- On a hand with more than four fingers `getHandInfo` writes the flag and
nine numbers. -/
theorem getHandInfo_resolved (sdk : LeapSdk α) (hand : Hand α) (h : hand.fingers.length > 4) :
    (getHandInfo sdk hand).1 =
      (if hand.isLeft then " 1" else " 0")
        ++ " " ++ sdk.shows (sdk.pitch hand.direction * sdk.RAD_TO_DEG)
        ++ " " ++ sdk.shows (sdk.roll hand.palmNormal * sdk.RAD_TO_DEG)
        ++ " " ++ sdk.shows (sdk.yaw hand.direction * sdk.RAD_TO_DEG)
        ++ " " ++ sdk.shows ((sdk.PI / 2 + sdk.yaw ((fingerAt hand.fingers 0).bone 3).direction
                    - sdk.yaw hand.direction) * sdk.RAD_TO_DEG)
        ++ " " ++ sdk.shows ((sdk.PI + sdk.pitch hand.direction
                    - sdk.pitch ((fingerAt hand.fingers 1).bone 2).direction) * sdk.RAD_TO_DEG)
        ++ " " ++ sdk.shows ((sdk.PI + sdk.pitch ((fingerAt hand.fingers 2).bone 2).direction
                    - sdk.pitch hand.direction) * sdk.RAD_TO_DEG)
        ++ " " ++ sdk.shows (hand.wristPosition.x / 100)
        ++ " " ++ sdk.shows (-hand.wristPosition.z / 100)
        ++ " " ++ sdk.shows (-hand.wristPosition.y / 100) := by
  simp only [getHandInfo, h, if_true]

/-- Every feature group starts with the flag field. -/
theorem getHandInfo_flag (sdk : LeapSdk α) (hand : Hand α) :
    ∃ rest : String,
      (getHandInfo sdk hand).1 = (if hand.isLeft then " 1" else " 0") ++ rest := by
  by_cases h : hand.fingers.length > 4
  · rw [getHandInfo_resolved sdk hand h]
    simp only [String.append_assoc]
    exact ⟨_, rfl⟩
  · rw [getHandInfo_degraded sdk hand (Nat.le_of_not_lt h)]
    exact ⟨"", (String.append_empty _).symm⟩

/-- Every feature group starts with a space and the flag digit. -/
theorem getHandInfo_data (sdk : LeapSdk α) (hand : Hand α) :
    ∃ rest : List Char,
      (getHandInfo sdk hand).1.data = ' ' :: (if hand.isLeft then '1' else '0') :: rest := by
  obtain ⟨rest, hr⟩ := getHandInfo_flag sdk hand
  refine ⟨rest.data, ?_⟩
  rw [hr, String.data_append]
  cases hand.isLeft <;> rfl

/-- No feature group is the placeholder group. -/
theorem getHandInfo_ne_placeholder (sdk : LeapSdk α) (hand : Hand α) :
    (getHandInfo sdk hand).1 ≠ placeholder := by
  intro h
  obtain ⟨rest, hr⟩ := getHandInfo_data sdk hand
  rw [h] at hr
  cases hL : hand.isLeft <;> simp [placeholder, hL] at hr

/-- The two orders of a real group and the placeholder give different messages. -/
theorem single_orders_ne (sdk : LeapSdk α) (hand : Hand α) :
    " 1" ++ (getHandInfo sdk hand).1 ++ placeholder ++ ";"
      ≠ " 1" ++ placeholder ++ (getHandInfo sdk hand).1 ++ ";" := by
  intro h
  obtain ⟨rest, hr⟩ := getHandInfo_data sdk hand
  have hd := congrArg String.data h
  simp only [String.data_append, hr, List.append_assoc] at hd
  cases hL : hand.isLeft <;> simp [placeholder, hL] at hd

/-- The message of a frame with exactly one hand. -/
theorem message_single (sdk : LeapSdk α) (h : Hand α) :
    message sdk ⟨[h]⟩ =
      if h.isLeft then " 1" ++ (getHandInfo sdk h).1 ++ placeholder ++ ";"
      else " 1" ++ placeholder ++ (getHandInfo sdk h).1 ++ ";" := by
  have hl : leftmost [h] = h := rfl
  have h1 : " " ++ toString 1 = " 1" := by decide
  cases hL : h.isLeft <;>
    simp only [message, hl, hL, h1, placeholder, List.length_singleton, gt_iff_lt,
      lt_self_iff_false, if_true, if_false, Bool.false_eq_true]

/-- The running minimum of `leftmost` is the start value or a later element. -/
theorem foldl_left_mem (t : List (Hand α)) (h : Hand α) :
    t.foldl (fun best c => if c.palmPosition.x < best.palmPosition.x then c else best) h
      ∈ h :: t := by
  induction t generalizing h with
  | nil => simp
  | cons c t ih =>
    simp only [List.foldl_cons]
    have := ih (if c.palmPosition.x < h.palmPosition.x then c else h)
    split_ifs at this ⊢ with hc <;> simp only [List.mem_cons] at this ⊢ <;> tauto

/-- The running minimum of `leftmost` is below the start value and every later
element. -/
theorem foldl_left_le (t : List (Hand α)) (h : Hand α) :
    ∀ c ∈ h :: t,
      (t.foldl (fun best c => if c.palmPosition.x < best.palmPosition.x then c else best)
        h).palmPosition.x ≤ c.palmPosition.x := by
  induction t generalizing h with
  | nil => simp
  | cons d t ih =>
    intro c hc
    simp only [List.foldl_cons]
    have hstep := ih (if d.palmPosition.x < h.palmPosition.x then d else h)
    simp only [List.mem_cons] at hc hstep
    rcases hc with rfl | rfl | hc
    · refine le_trans (hstep _ (Or.inl rfl)) ?_
      split_ifs with hd
      · exact le_of_lt hd
      · exact le_refl _
    · refine le_trans (hstep _ (Or.inl rfl)) ?_
      split_ifs with hd
      · exact le_refl _
      · exact le_of_not_lt hd
    · exact hstep c (Or.inr hc)

/-- The running maximum of `rightmost` is the start value or a later element. -/
theorem foldl_right_mem (t : List (Hand α)) (h : Hand α) :
    t.foldl (fun best c => if best.palmPosition.x < c.palmPosition.x then c else best) h
      ∈ h :: t := by
  induction t generalizing h with
  | nil => simp
  | cons c t ih =>
    simp only [List.foldl_cons]
    have := ih (if h.palmPosition.x < c.palmPosition.x then c else h)
    split_ifs at this ⊢ with hc <;> simp only [List.mem_cons] at this ⊢ <;> tauto

/-- The running maximum of `rightmost` is above the start value and every later
element. -/
theorem foldl_right_ge (t : List (Hand α)) (h : Hand α) :
    ∀ c ∈ h :: t,
      c.palmPosition.x ≤
        (t.foldl (fun best c => if best.palmPosition.x < c.palmPosition.x then c else best)
          h).palmPosition.x := by
  induction t generalizing h with
  | nil => simp
  | cons d t ih =>
    intro c hc
    simp only [List.foldl_cons]
    have hstep := ih (if h.palmPosition.x < d.palmPosition.x then d else h)
    simp only [List.mem_cons] at hc hstep
    rcases hc with rfl | rfl | hc
    · refine le_trans ?_ (hstep _ (Or.inl rfl))
      split_ifs with hd
      · exact le_of_lt hd
      · exact le_refl _
    · refine le_trans ?_ (hstep _ (Or.inl rfl))
      split_ifs with hd
      · exact le_refl _
      · exact le_of_not_lt hd
    · exact hstep c (Or.inr hc)

/-- The hand `leftmost` returns for a non-empty list is a hand of the list. -/
theorem leftmost_mem (hands : List (Hand α)) (hne : hands ≠ []) : leftmost hands ∈ hands := by
  cases hands with
  | nil => exact absurd rfl hne
  | cons h t => exact foldl_left_mem t h

/-- No hand of the list is further left than the hand `leftmost` returns. -/
theorem leftmost_le (hands : List (Hand α)) :
    ∀ c ∈ hands, (leftmost hands).palmPosition.x ≤ c.palmPosition.x := by
  cases hands with
  | nil => simp
  | cons h t => exact foldl_left_le t h

/-- The hand `rightmost` returns for a non-empty list is a hand of the list. -/
theorem rightmost_mem (hands : List (Hand α)) (hne : hands ≠ []) : rightmost hands ∈ hands := by
  cases hands with
  | nil => exact absurd rfl hne
  | cons h t => exact foldl_right_mem t h

/-- No hand of the list is further right than the hand `rightmost` returns. -/
theorem rightmost_ge (hands : List (Hand α)) :
    ∀ c ∈ hands, c.palmPosition.x ≤ (rightmost hands).palmPosition.x := by
  cases hands with
  | nil => simp
  | cons h t => exact foldl_right_ge t h

/-- A list of two or more elements is not empty. -/
theorem ne_nil_of_two_le {β : Type} (l : List β) (h : 2 ≤ l.length) : l ≠ [] := by
  rintro rfl
  simp at h

/-- The message of a frame with two or more hands. -/
theorem message_many (sdk : LeapSdk α) (frame : Frame α) (h2 : 2 ≤ frame.hands.length) :
    message sdk frame =
      if (leftmost frame.hands).isLeft then
        " " ++ toString frame.hands.length ++ (getHandInfo sdk (leftmost frame.hands)).1
          ++ (getHandInfo sdk (rightmost frame.hands)).1 ++ ";"
      else
        " " ++ toString frame.hands.length ++ (getHandInfo sdk (rightmost frame.hands)).1
          ++ (getHandInfo sdk (leftmost frame.hands)).1 ++ ";" := by
  have h1 : frame.hands.length > 1 := h2
  cases hL : (leftmost frame.hands).isLeft <;>
    simp only [message, h1, hL, if_true, if_false, Bool.false_eq_true]

/-- No decimal digit character is a semicolon. -/
theorem digitChar_ne_semicolon : ∀ m : Nat, m < 10 → Nat.digitChar m ≠ ';' := by
  decide

/-- The digits of a number in base ten contain no semicolon. -/
theorem toDigitsCore_no_semicolon (fuel : Nat) :
    ∀ (n : Nat) (ds : List Char), ';' ∉ ds → ';' ∉ Nat.toDigitsCore 10 fuel n ds := by
  induction fuel with
  | zero => intro n ds h; simpa [Nat.toDigitsCore] using h
  | succ fuel ih =>
    intro n ds h
    have hcons : ';' ∉ Nat.digitChar (n % 10) :: ds := by
      simp only [List.mem_cons, not_or]
      exact ⟨(digitChar_ne_semicolon _ (Nat.mod_lt n (by decide))).symm, h⟩
    simp only [Nat.toDigitsCore]
    split_ifs
    · exact hcons
    · exact ih _ _ hcons

/-- The decimal text of a hand count contains no semicolon. -/
theorem toString_nat_no_semicolon (n : Nat) : ';' ∉ (toString n).data := by
  show ';' ∉ (Nat.repr n).data
  simp only [Nat.repr, Nat.toDigits, List.asString]
  exact toDigitsCore_no_semicolon _ _ _ (by simp)

/-- A feature group contains no semicolon when no shown number does. -/
theorem getHandInfo_no_semicolon (sdk : LeapSdk α) (hand : Hand α)
    (hshow : ∀ x : α, ';' ∉ (sdk.shows x).data) : ';' ∉ (getHandInfo sdk hand).1.data := by
  by_cases h : hand.fingers.length > 4
  · rw [getHandInfo_resolved sdk hand h]
    cases hand.isLeft <;> simp [String.data_append, hshow]
  · rw [getHandInfo_degraded sdk hand (Nat.le_of_not_lt h)]
    cases hand.isLeft <;> simp

/-- A pattern that starts with a space does not occur at a position inside text
that has no space. -/
theorem occurrences_skip (p s r : List Char) (hs : ' ' ∉ s) :
    occurrences (' ' :: p) (s ++ r) = occurrences (' ' :: p) r := by
  induction s with
  | nil => rfl
  | cons c s ih =>
    simp only [List.mem_cons, not_or] at hs
    have hc : (' ' == c) = false := by simpa using hs.1
    simp [occurrences, List.isPrefixOf, hc, ih hs.2]

/-- Occurrences of a pattern starting with a space in text starting with a space. -/
theorem occurrences_space (p r : List Char) :
    occurrences (' ' :: p) (' ' :: r) = (if p.isPrefixOf r then 1 else 0) + occurrences (' ' :: p) r := by
  simp [occurrences, List.isPrefixOf]

/-- A pattern that starts with a space does not occur at another character. -/
theorem occurrences_other (p r : List Char) (c : Char) (hc : c ≠ ' ') :
    occurrences (' ' :: p) (c :: r) = occurrences (' ' :: p) r := by
  have hc2 : (' ' == c) = false := by simpa using hc.symm
  simp [occurrences, List.isPrefixOf, hc2]

/-- Matching a pattern token against a text token, both free of spaces and both
followed by a space: the tokens are equal and the rests match. -/
theorem isPrefixOf_token (t p : List Char) (ht : ' ' ∉ t) :
    ∀ (s r : List Char), ' ' ∉ s →
      (t ++ ' ' :: p).isPrefixOf (s ++ ' ' :: r) = (decide (s = t) && p.isPrefixOf r) := by
  induction t with
  | nil =>
    intro s r hs
    cases s with
    | nil => simp [List.isPrefixOf]
    | cons c s =>
      simp only [List.mem_cons, not_or] at hs
      have hc : (' ' == c) = false := by simpa using hs.1
      simp [List.isPrefixOf, hc]
  | cons a t ih =>
    intro s r hs
    simp only [List.mem_cons, not_or] at ht
    cases s with
    | nil =>
      have ha : (a == ' ') = false := by simpa using (Ne.symm ht.1)
      simp [List.isPrefixOf, ha]
    | cons c s =>
      simp only [List.mem_cons, not_or] at hs
      have hrec := ih ht.2 s r hs.2
      by_cases hac : a = c
      · subst hac
        simpa [List.isPrefixOf] using hrec
      · have hne : (a == c) = false := by simpa using hac
        simp [List.isPrefixOf, hne, Ne.symm hac]

/-- A pattern token followed by a space does not match the last token of a
message, which `;` follows. -/
theorem isPrefixOf_token_end (t p : List Char) (ht : ' ' ∉ t) :
    ∀ (s : List Char), ' ' ∉ s → (t ++ ' ' :: p).isPrefixOf (s ++ [';']) = false := by
  induction t with
  | nil =>
    intro s hs
    cases s with
    | nil => simp [List.isPrefixOf]
    | cons c s =>
      simp only [List.mem_cons, not_or] at hs
      have hc : (' ' == c) = false := by simpa using hs.1
      simp [List.isPrefixOf, hc]
  | cons a t ih =>
    intro s hs
    simp only [List.mem_cons, not_or] at ht
    cases s with
    | nil =>
      cases t <;> simp [List.isPrefixOf]
    | cons c s =>
      simp only [List.mem_cons, not_or] at hs
      have hrec := ih ht.2 s hs.2
      simp only [List.cons_append, List.isPrefixOf, Bool.and_eq_false_imp]
      intro _
      exact hrec

/-- The lemma `isPrefixOf_token` for the token `555`. -/
theorem isPrefixOf_555 (p s r : List Char) (hs : ' ' ∉ s) :
    ('5' :: '5' :: '5' :: ' ' :: p).isPrefixOf (s ++ ' ' :: r)
      = (decide (s = ['5', '5', '5']) && p.isPrefixOf r) :=
  isPrefixOf_token ['5', '5', '5'] p (by decide) s r hs

/-- The lemma `isPrefixOf_token` for the token `0`. -/
theorem isPrefixOf_0 (p s r : List Char) (hs : ' ' ∉ s) :
    ('0' :: ' ' :: p).isPrefixOf (s ++ ' ' :: r) = (decide (s = ['0']) && p.isPrefixOf r) :=
  isPrefixOf_token ['0'] p (by decide) s r hs

/-- The lemma `isPrefixOf_token_end` for the token `555`. -/
theorem isPrefixOf_555_end (p s : List Char) (hs : ' ' ∉ s) :
    ('5' :: '5' :: '5' :: ' ' :: p).isPrefixOf (s ++ [';']) = false :=
  isPrefixOf_token_end ['5', '5', '5'] p (by decide) s hs

/-- The lemma `isPrefixOf_token_end` for the token `0`. -/
theorem isPrefixOf_0_end (p s : List Char) (hs : ' ' ∉ s) :
    ('0' :: ' ' :: p).isPrefixOf (s ++ [';']) = false :=
  isPrefixOf_token_end ['0'] p (by decide) s hs

/-- Matching a pattern against text, one character at a time. -/
theorem isPrefixOf_lit (a b : Char) (p r : List Char) :
    (a :: p).isPrefixOf (b :: r) = (a == b && p.isPrefixOf r) := rfl

/-- The empty pattern matches any text. -/
theorem isPrefixOf_nil_left (r : List Char) : ([] : List Char).isPrefixOf r = true := by
  cases r <;> rfl

set_option maxHeartbeats 4000000 in
/-- The placeholder text occurs once in the message of one right hand with ten
fields, whatever space-free texts the nine numbers have. -/
theorem occ_right_resolved (s1 s2 s3 s4 s5 s6 s7 s8 s9 : List Char)
    (h1 : ' ' ∉ s1) (h2 : ' ' ∉ s2) (h3 : ' ' ∉ s3) (h4 : ' ' ∉ s4) (h5 : ' ' ∉ s5)
    (h6 : ' ' ∉ s6) (h7 : ' ' ∉ s7) (h8 : ' ' ∉ s8) (h9 : ' ' ∉ s9) :
    occurrences " 555 0 0 0 0 0 0 0 0 0".data
      (" 1 555 0 0 0 0 0 0 0 0 0 0".data ++ (' ' :: (s1 ++ ' ' :: (s2 ++ ' ' :: (s3 ++ ' ' :: (s4 ++ ' ' ::
        (s5 ++ ' ' :: (s6 ++ ' ' :: (s7 ++ ' ' :: (s8 ++ ' ' :: (s9 ++ [';']))))))))))) = 1 := by
  simp [occurrences_skip, occurrences_space, occurrences_other, isPrefixOf_555, isPrefixOf_0,
    isPrefixOf_555_end, isPrefixOf_0_end, h1, h2, h3, h4, h5, h6, h7, h8, h9,
    isPrefixOf_lit, isPrefixOf_nil_left, occurrences]

set_option maxHeartbeats 4000000 in
/-- The placeholder text occurs once in the message of one left hand with ten
fields, whatever space-free texts the nine numbers have. -/
theorem occ_left_resolved (s1 s2 s3 s4 s5 s6 s7 s8 s9 : List Char)
    (h1 : ' ' ∉ s1) (h2 : ' ' ∉ s2) (h3 : ' ' ∉ s3) (h4 : ' ' ∉ s4) (h5 : ' ' ∉ s5)
    (h6 : ' ' ∉ s6) (h7 : ' ' ∉ s7) (h8 : ' ' ∉ s8) (h9 : ' ' ∉ s9) :
    occurrences " 555 0 0 0 0 0 0 0 0 0".data
      (" 1 1".data ++ (' ' :: (s1 ++ ' ' :: (s2 ++ ' ' :: (s3 ++ ' ' :: (s4 ++ ' ' ::
        (s5 ++ ' ' :: (s6 ++ ' ' :: (s7 ++ ' ' :: (s8 ++ ' ' :: (s9 ++ " 555 0 0 0 0 0 0 0 0 0;".data))))))))))) = 1 := by
  simp [occurrences_skip, occurrences_space, occurrences_other, isPrefixOf_555, isPrefixOf_0,
    isPrefixOf_555_end, isPrefixOf_0_end, h1, h2, h3, h4, h5, h6, h7, h8, h9,
    isPrefixOf_lit, isPrefixOf_nil_left, occurrences]

set_option maxHeartbeats 4000000 in
/-- The placeholder text occurs once in the message of one right hand with one
field. -/
theorem occ_right_degraded :
    occurrences " 555 0 0 0 0 0 0 0 0 0".data " 1 555 0 0 0 0 0 0 0 0 0 0;".data = 1 := by
  decide

set_option maxHeartbeats 4000000 in
/-- The placeholder text occurs once in the message of one left hand with one
field. -/
theorem occ_left_degraded :
    occurrences " 555 0 0 0 0 0 0 0 0 0".data " 1 1 555 0 0 0 0 0 0 0 0 0;".data = 1 := by
  decide

/-- The placeholder text occurs exactly once in the message of a frame with one
hand, when no shown number contains a space. -/
theorem occurrences_single (sdk : LeapSdk α) (h : Hand α)
    (hshow : ∀ x : α, ' ' ∉ (sdk.shows x).data) :
    occurrences placeholder.data
      (if h.isLeft then " 1" ++ (getHandInfo sdk h).1 ++ placeholder ++ ";"
        else " 1" ++ placeholder ++ (getHandInfo sdk h).1 ++ ";").data = 1 := by
  by_cases h4 : h.fingers.length > 4
  · rw [getHandInfo_resolved sdk h h4]
    cases hL : h.isLeft
    · simp only [placeholder, String.data_append, if_false, Bool.false_eq_true, List.append_assoc]
      exact occ_right_resolved _ _ _ _ _ _ _ _ _ (hshow _) (hshow _) (hshow _) (hshow _)
        (hshow _) (hshow _) (hshow _) (hshow _) (hshow _)
    · simp only [placeholder, String.data_append, if_true, List.append_assoc]
      exact occ_left_resolved _ _ _ _ _ _ _ _ _ (hshow _) (hshow _) (hshow _) (hshow _)
        (hshow _) (hshow _) (hshow _) (hshow _) (hshow _)
  · rw [getHandInfo_degraded sdk h (Nat.le_of_not_lt h4)]
    cases hL : h.isLeft
    · exact occ_right_degraded
    · exact occ_left_degraded

end aux

/-! ## The claims -/

section claims
variable {α σ : Type} [LinearOrderedField α]

/-- C1: On a frame with exactly one hand the message `onFrame` writes is the
count `" 1"`, two groups and `";"`, where one group is the placeholder group and
the other is the output of `getHandInfo` for the hand (which is never the
placeholder group); the placeholder group is the second of the two exactly when
the hand is a left hand, and the first exactly when it is not. Moreover, when
the text shown for a number never contains a space, the placeholder text occurs
at exactly one position of the message. -/
theorem onFrame_single_hand_placeholder (sdk : LeapSdk α)
    (write : σ → String → σ × Option String) (self : SampleListener σ)
    (frame : Frame α) (h : Hand α) (hf : frame.hands = [h]) :
    (getHandInfo sdk h).1 ≠ placeholder ∧
    (written (onFrame sdk write self frame).2
        = [" 1" ++ (getHandInfo sdk h).1 ++ placeholder ++ ";"] ↔ h.isLeft = true) ∧
    (written (onFrame sdk write self frame).2
        = [" 1" ++ placeholder ++ (getHandInfo sdk h).1 ++ ";"] ↔ h.isLeft = false) ∧
    ((∀ x : α, ' ' ∉ (sdk.shows x).data) →
      ∀ msg ∈ written (onFrame sdk write self frame).2,
        occurrences placeholder.data msg.data = 1) := by
  obtain ⟨hands⟩ := frame
  simp only at hf
  subst hf
  rw [written_onFrame sdk write self ⟨[h]⟩ (by simp), message_single]
  refine ⟨getHandInfo_ne_placeholder sdk h, ?_, ?_, ?_⟩
  · cases hL : h.isLeft
    · simpa using (single_orders_ne sdk h).symm
    · simp
  · cases hL : h.isLeft
    · simp
    · simpa using single_orders_ne sdk h
  · intro hshow msg hmsg
    rw [List.mem_singleton] at hmsg
    rw [hmsg]
    exact occurrences_single sdk h hshow

/-- Scenario C of the specification, obtained from C1: one left hand with three
fingers gives the message `" 1 1 555 0 0 0 0 0 0 0 0 0;"`. -/
theorem onFrame_single_hand_placeholder_witness :
    (⟨[degradedLeftHand]⟩ : Frame ℚ).hands = [degradedLeftHand] ∧
    (∀ x : ℚ, ' ' ∉ (demoSdk.shows x).data) ∧
    written (onFrame demoSdk failingWrite demoListener ⟨[degradedLeftHand]⟩).2
      = [" 1 1 555 0 0 0 0 0 0 0 0 0;"] ∧
    occurrences placeholder.data " 1 1 555 0 0 0 0 0 0 0 0 0;".data = 1 := by
  have hshow : ∀ x : ℚ, ' ' ∉ (demoSdk.shows x).data := by
    intro x
    simp only [demoSdk]
    split_ifs <;> decide
  have hthm := onFrame_single_hand_placeholder demoSdk failingWrite demoListener
    ⟨[degradedLeftHand]⟩ degradedLeftHand rfl
  have hw : written (onFrame demoSdk failingWrite demoListener ⟨[degradedLeftHand]⟩).2
      = [" 1 1 555 0 0 0 0 0 0 0 0 0;"] := (hthm.2.1.mpr rfl).trans (by decide)
  refine ⟨rfl, hshow, hw, hthm.2.2.2 hshow _ ?_⟩
  rw [hw]
  exact List.mem_singleton.mpr rfl

/-- C4: On a frame with zero hands `onFrame` returns the listener unchanged and
performs no effect at all: no message is built and nothing is written to the
socket. -/
theorem onFrame_no_hands (sdk : LeapSdk α) (write : σ → String → σ × Option String)
    (self : SampleListener σ) (frame : Frame α) (h : frame.hands = []) :
    onFrame sdk write self frame = (self, []) ∧
    written (onFrame sdk write self frame).2 = [] := by
  have h0 : onFrame sdk write self frame = (self, []) := by
    simp [onFrame, h]
  exact ⟨h0, by rw [h0]; rfl⟩

/-- Scenario A of the specification, obtained from C4. -/
theorem onFrame_no_hands_witness :
    (⟨[]⟩ : Frame ℚ).hands = [] ∧
    onFrame demoSdk failingWrite demoListener ⟨[]⟩ = (demoListener, []) ∧
    written (onFrame demoSdk failingWrite demoListener ⟨[]⟩).2 = [] :=
  ⟨rfl, onFrame_no_hands demoSdk failingWrite demoListener ⟨[]⟩ rfl⟩

/-- C5: The feature group `getHandInfo` writes is one space-prefixed field, the
handedness flag (`1` for a left hand, `0` otherwise), when the hand has four
fingers or fewer, and ten space-prefixed fields, the flag followed by the
texts of nine numbers, when the hand has more than four fingers. -/
theorem getHandInfo_field_count (sdk : LeapSdk α) (hand : Hand α) :
    (hand.fingers.length ≤ 4 →
      (getHandInfo sdk hand).1 = fieldsText [if hand.isLeft then "1" else "0"]) ∧
    (hand.fingers.length > 4 →
      ∃ vals : List α, vals.length = 9 ∧
        (getHandInfo sdk hand).1
          = fieldsText ((if hand.isLeft then "1" else "0") :: vals.map sdk.shows)) := by
  constructor
  · intro h
    rw [getHandInfo_degraded sdk hand h]
    cases hand.isLeft <;> rfl
  · intro h
    refine ⟨[sdk.pitch hand.direction * sdk.RAD_TO_DEG,
      sdk.roll hand.palmNormal * sdk.RAD_TO_DEG,
      sdk.yaw hand.direction * sdk.RAD_TO_DEG,
      (sdk.PI / 2 + sdk.yaw ((fingerAt hand.fingers 0).bone 3).direction
        - sdk.yaw hand.direction) * sdk.RAD_TO_DEG,
      (sdk.PI + sdk.pitch hand.direction
        - sdk.pitch ((fingerAt hand.fingers 1).bone 2).direction) * sdk.RAD_TO_DEG,
      (sdk.PI + sdk.pitch ((fingerAt hand.fingers 2).bone 2).direction
        - sdk.pitch hand.direction) * sdk.RAD_TO_DEG,
      hand.wristPosition.x / 100, -hand.wristPosition.z / 100,
      -hand.wristPosition.y / 100], rfl, ?_⟩
    rw [getHandInfo_resolved sdk hand h]
    cases hand.isLeft <;>
      simp only [fieldsText, List.map, String.append_assoc, String.append_empty,
        Bool.false_eq_true, if_true, if_false] <;> rfl

/-- C5 at a left hand with three fingers and at a right hand with five. -/
theorem getHandInfo_field_count_witness :
    (degradedLeftHand.fingers.length ≤ 4 ∧
      (getHandInfo demoSdk degradedLeftHand).1 = fieldsText ["1"]) ∧
    (scenarioBHand.fingers.length > 4 ∧
      ∃ vals : List ℚ, vals.length = 9 ∧
        (getHandInfo demoSdk scenarioBHand).1 = fieldsText ("0" :: vals.map demoSdk.shows)) :=
  ⟨⟨by decide, (getHandInfo_field_count demoSdk degradedLeftHand).1 (by decide)⟩,
   ⟨by decide, (getHandInfo_field_count demoSdk scenarioBHand).2 (by decide)⟩⟩

/-- C7: In exact arithmetic, with `RAD_TO_DEG = 180 / PI`, the group
`getHandInfo` writes for a hand with more than four fingers is the flag followed
by the texts of, in this order: `pitch(direction) * 180 / PI`,
`roll(palmNormal) * 180 / PI`, `yaw(direction) * 180 / PI`,
`(PI / 2 + yaw(thumb bone 3 direction) - yaw(direction)) * 180 / PI`,
`(PI + pitch(direction) - pitch(index bone 2 direction)) * 180 / PI`,
`(PI + pitch(middle bone 2 direction) - pitch(direction)) * 180 / PI`,
`wrist.x / 100`, `-wrist.z / 100`, `-wrist.y / 100`. -/
theorem getHandInfo_numeric_fields (sdk : LeapSdk α) (hand : Hand α)
    (hdeg : sdk.RAD_TO_DEG = 180 / sdk.PI) (h : hand.fingers.length > 4) :
    (getHandInfo sdk hand).1 =
      fieldsText ((if hand.isLeft then "1" else "0") :: List.map sdk.shows
        [ sdk.pitch hand.direction * 180 / sdk.PI,
          sdk.roll hand.palmNormal * 180 / sdk.PI,
          sdk.yaw hand.direction * 180 / sdk.PI,
          (sdk.PI / 2 + sdk.yaw ((fingerAt hand.fingers 0).bone 3).direction
            - sdk.yaw hand.direction) * 180 / sdk.PI,
          (sdk.PI + sdk.pitch hand.direction
            - sdk.pitch ((fingerAt hand.fingers 1).bone 2).direction) * 180 / sdk.PI,
          (sdk.PI + sdk.pitch ((fingerAt hand.fingers 2).bone 2).direction
            - sdk.pitch hand.direction) * 180 / sdk.PI,
          hand.wristPosition.x / 100,
          -hand.wristPosition.z / 100,
          -hand.wristPosition.y / 100 ]) := by
  rw [getHandInfo_resolved sdk hand h, hdeg]
  simp only [mul_div_assoc]
  cases hand.isLeft <;>
    simp only [fieldsText, List.map, String.append_assoc, String.append_empty,
      Bool.false_eq_true, if_true, if_false] <;> rfl

/-- C7 at a left hand with five fingers: with `PI = 3` and all angles zero the
three bend angles are `(3 / 2) * 180 / 3`, `3 * 180 / 3` and `3 * 180 / 3`. -/
theorem getHandInfo_numeric_fields_witness :
    demoSdk.RAD_TO_DEG = 180 / demoSdk.PI ∧ resolvedLeftHand.fingers.length > 4 ∧
    (getHandInfo demoSdk resolvedLeftHand).1 =
      fieldsText ("1" :: List.map demoSdk.shows
        [ 0 * 180 / 3, 0 * 180 / 3, 0 * 180 / 3,
          (3 / 2 + 0 - 0) * 180 / 3, (3 + 0 - 0) * 180 / 3, (3 + 0 - 0) * 180 / 3,
          0 / 100, -0 / 100, -0 / 100 ]) :=
  ⟨by norm_num [demoSdk], by decide,
    getHandInfo_numeric_fields demoSdk resolvedLeftHand (by norm_num [demoSdk]) (by decide)⟩

/-- C3, as the specification states it, fails: for one right hand with five
fingers whose nine numeric fields all show as `0`, the message `onFrame` writes
is not `" 1 0 0 0 0 0 0 0 0 0 0 555 0 0 0 0 0 0 0 0 0;"`. -/
theorem onFrame_scenarioB_counterexample :
    scenarioBHand.isLeft = false ∧ scenarioBHand.fingers.length = 5 ∧
    (numericFields demoSdk scenarioBHand).map demoSdk.shows = ["0", "0", "0", "0", "0", "0", "0", "0", "0"] ∧
    written (onFrame demoSdk failingWrite demoListener ⟨[scenarioBHand]⟩).2
      ≠ [" 1 0 0 0 0 0 0 0 0 0 0 555 0 0 0 0 0 0 0 0 0;"] := by
  refine ⟨rfl, rfl, ?_, ?_⟩
  · norm_num [numericFields, demoSdk, scenarioBHand, zeroVec, zeroFinger, fingerAt, Finger.bone]
  · rw [written_onFrame demoSdk failingWrite demoListener ⟨[scenarioBHand]⟩ (by simp),
      message_single]
    intro h
    have hd := congrArg (fun l => (l.map String.data).map (fun cs => cs.take 4)) h
    simp [scenarioBHand, placeholder] at hd

/-- C3, amended: for a frame with exactly one right hand that has five fingers
and whose nine numeric fields all show as `0`, `onFrame` writes the count, then
the placeholder group, then the hand's ten fields, then `;`, that is
`" 1 555 0 0 0 0 0 0 0 0 0 0 0 0 0 0 0 0 0 0 0;"`. -/
theorem onFrame_scenarioB (sdk : LeapSdk α) (write : σ → String → σ × Option String)
    (self : SampleListener σ) (frame : Frame α) (h : Hand α) (hf : frame.hands = [h])
    (hright : h.isLeft = false) (hfive : h.fingers.length = 5)
    (hzero : (numericFields sdk h).map sdk.shows = ["0", "0", "0", "0", "0", "0", "0", "0", "0"]) :
    written (onFrame sdk write self frame).2
      = [" 1 555 0 0 0 0 0 0 0 0 0 0 0 0 0 0 0 0 0 0 0;"] := by
  obtain ⟨hands⟩ := frame
  simp only at hf
  subst hf
  have h4 : h.fingers.length > 4 := by omega
  rw [written_onFrame sdk write self ⟨[h]⟩ (by simp), message_single,
    getHandInfo_resolved sdk h h4]
  simp only [numericFields, List.map, List.cons.injEq, and_true] at hzero
  obtain ⟨e1, e2, e3, e4, e5, e6, e7, e8, e9⟩ := hzero
  rw [e1, e2, e3, e4, e5, e6, e7, e8, e9, hright]
  decide

/-- The amended C3 at `scenarioBHand`. -/
theorem onFrame_scenarioB_witness :
    (⟨[scenarioBHand]⟩ : Frame ℚ).hands = [scenarioBHand] ∧
    scenarioBHand.isLeft = false ∧ scenarioBHand.fingers.length = 5 ∧
    (numericFields demoSdk scenarioBHand).map demoSdk.shows = ["0", "0", "0", "0", "0", "0", "0", "0", "0"] ∧
    written (onFrame demoSdk failingWrite demoListener ⟨[scenarioBHand]⟩).2
      = [" 1 555 0 0 0 0 0 0 0 0 0 0 0 0 0 0 0 0 0 0 0;"] :=
  have hz : (numericFields demoSdk scenarioBHand).map demoSdk.shows = ["0", "0", "0", "0", "0", "0", "0", "0", "0"] := by
    norm_num [numericFields, demoSdk, scenarioBHand, zeroVec, zeroFinger, fingerAt, Finger.bone]
  ⟨rfl, rfl, rfl, hz,
    onFrame_scenarioB demoSdk failingWrite demoListener ⟨[scenarioBHand]⟩ scenarioBHand
      rfl rfl rfl hz⟩

/-- C8: On a frame with `n ≥ 2` hands the message `onFrame` writes is `" "`,
the decimal count `n`, two groups and `";"`; the two groups are the
`getHandInfo` outputs of the hand `leftmost` returns and of the hand `rightmost`
returns, which are hands of the frame of minimum and of maximum horizontal palm
position; neither group is the placeholder group; and any frame with the same
count, the same leftmost and the same rightmost hand gives the same message. -/
theorem onFrame_two_or_more (sdk : LeapSdk α) (write : σ → String → σ × Option String)
    (self : SampleListener σ) (frame : Frame α) (h2 : 2 ≤ frame.hands.length) :
    written (onFrame sdk write self frame).2
      = [" " ++ toString frame.hands.length
          ++ (if (leftmost frame.hands).isLeft then
                (getHandInfo sdk (leftmost frame.hands)).1
                  ++ (getHandInfo sdk (rightmost frame.hands)).1
              else
                (getHandInfo sdk (rightmost frame.hands)).1
                  ++ (getHandInfo sdk (leftmost frame.hands)).1)
          ++ ";"] ∧
    (leftmost frame.hands ∈ frame.hands ∧
      ∀ c ∈ frame.hands, (leftmost frame.hands).palmPosition.x ≤ c.palmPosition.x) ∧
    (rightmost frame.hands ∈ frame.hands ∧
      ∀ c ∈ frame.hands, c.palmPosition.x ≤ (rightmost frame.hands).palmPosition.x) ∧
    (getHandInfo sdk (leftmost frame.hands)).1 ≠ placeholder ∧
    (getHandInfo sdk (rightmost frame.hands)).1 ≠ placeholder ∧
    (∀ other : Frame α, other.hands.length = frame.hands.length →
      leftmost other.hands = leftmost frame.hands →
      rightmost other.hands = rightmost frame.hands →
      written (onFrame sdk write self other).2 = written (onFrame sdk write self frame).2) := by
  have hne : frame.hands ≠ [] := ne_nil_of_two_le _ h2
  refine ⟨?_, ⟨leftmost_mem _ hne, leftmost_le _⟩, ⟨rightmost_mem _ hne, rightmost_ge _⟩,
    getHandInfo_ne_placeholder sdk _, getHandInfo_ne_placeholder sdk _, ?_⟩
  · rw [written_onFrame sdk write self frame hne, message_many sdk frame h2]
    cases (leftmost frame.hands).isLeft <;>
      simp only [if_true, if_false, Bool.false_eq_true, String.append_assoc]
  · intro other hlen hL hR
    have hne2 : other.hands ≠ [] := ne_nil_of_two_le _ (hlen ▸ h2)
    rw [written_onFrame sdk write self frame hne, written_onFrame sdk write self other hne2,
      message_many sdk frame h2, message_many sdk other (hlen ▸ h2), hlen, hL, hR]

/-- C8 at a frame with three hands, at `x = 1`, `x = 0` and `x = 2`: the
leftmost hand is the right hand at `x = 0`, so the group of the rightmost hand,
at `x = 2`, comes first, and the hand at `x = 1` contributes nothing. -/
theorem onFrame_two_or_more_witness :
    2 ≤ (⟨[degradedLeftHand, scenarioBHand, resolvedLeftHand]⟩ : Frame ℚ).hands.length ∧
    written (onFrame demoSdk failingWrite demoListener
        ⟨[degradedLeftHand, scenarioBHand, resolvedLeftHand]⟩).2
      = [" " ++ toString 3 ++ ((getHandInfo demoSdk resolvedLeftHand).1
          ++ (getHandInfo demoSdk scenarioBHand).1) ++ ";"] := by
  have hL : leftmost [degradedLeftHand, scenarioBHand, resolvedLeftHand] = scenarioBHand := by
    norm_num [leftmost, degradedLeftHand, scenarioBHand, resolvedLeftHand, zeroVec]
  have hR : rightmost [degradedLeftHand, scenarioBHand, resolvedLeftHand]
      = resolvedLeftHand := by
    norm_num [rightmost, degradedLeftHand, scenarioBHand, resolvedLeftHand, zeroVec]
  have hthm := (onFrame_two_or_more demoSdk failingWrite demoListener
    ⟨[degradedLeftHand, scenarioBHand, resolvedLeftHand]⟩ (by decide)).1
  simp only [hL, hR] at hthm
  exact ⟨by decide, hthm⟩

/-- C10: On a frame with two or more hands whose leftmost and rightmost hands
have the same handedness, the order of the two groups follows the leftmost
hand: when both are left hands the leftmost hand's group is written first, and
when both are right hands the rightmost hand's group is written first. -/
theorem onFrame_same_handedness (sdk : LeapSdk α) (write : σ → String → σ × Option String)
    (self : SampleListener σ) (frame : Frame α) (h2 : 2 ≤ frame.hands.length) :
    ((leftmost frame.hands).isLeft = true ∧ (rightmost frame.hands).isLeft = true →
      written (onFrame sdk write self frame).2
        = [" " ++ toString frame.hands.length ++ (getHandInfo sdk (leftmost frame.hands)).1
            ++ (getHandInfo sdk (rightmost frame.hands)).1 ++ ";"]) ∧
    ((leftmost frame.hands).isLeft = false ∧ (rightmost frame.hands).isLeft = false →
      written (onFrame sdk write self frame).2
        = [" " ++ toString frame.hands.length ++ (getHandInfo sdk (rightmost frame.hands)).1
            ++ (getHandInfo sdk (leftmost frame.hands)).1 ++ ";"]) := by
  have hne : frame.hands ≠ [] := ne_nil_of_two_le _ h2
  rw [written_onFrame sdk write self frame hne, message_many sdk frame h2]
  constructor
  · rintro ⟨hL, -⟩
    simp only [hL, if_true]
  · rintro ⟨hL, -⟩
    simp only [hL, if_false, Bool.false_eq_true]

/-- C6: Provided the text shown for a number never contains `;`, the message
`onFrame` writes on a frame with at least one hand is a body followed by the
character `;`, and the body contains no `;`. -/
theorem onFrame_message_terminator (sdk : LeapSdk α)
    (write : σ → String → σ × Option String) (self : SampleListener σ) (frame : Frame α)
    (hne : frame.hands ≠ []) (hshow : ∀ x : α, ';' ∉ (sdk.shows x).data) :
    ∃ body : String,
      written (onFrame sdk write self frame).2 = [body ++ ";"] ∧ ';' ∉ body.data := by
  have hcount := toString_nat_no_semicolon frame.hands.length
  have hleft := getHandInfo_no_semicolon sdk (leftmost frame.hands) hshow
  have hright := getHandInfo_no_semicolon sdk (rightmost frame.hands) hshow
  rw [written_onFrame sdk write self frame hne]
  refine ⟨_, rfl, ?_⟩
  split_ifs <;> simp [String.data_append, hcount, hleft, hright]

/-- C6 at a frame with one left hand, with the stand-in SDK. -/
theorem onFrame_message_terminator_witness :
    (⟨[degradedLeftHand]⟩ : Frame ℚ).hands ≠ [] ∧
    (∀ x : ℚ, ';' ∉ (demoSdk.shows x).data) ∧
    ∃ body : String,
      written (onFrame demoSdk failingWrite demoListener ⟨[degradedLeftHand]⟩).2 = [body ++ ";"]
        ∧ ';' ∉ body.data :=
  have hshow : ∀ x : ℚ, ';' ∉ (demoSdk.shows x).data := by
    intro x
    simp only [demoSdk]
    split_ifs <;> decide
  ⟨by simp, hshow,
    onFrame_message_terminator demoSdk failingWrite demoListener ⟨[degradedLeftHand]⟩
      (by simp) hshow⟩

/-- C10 at two left hands (`x = 1`, `x = 2`) and at two right hands (`x = 0`,
`x = 3`, listed right to left). -/
theorem onFrame_same_handedness_witness :
    (written (onFrame demoSdk failingWrite demoListener
        ⟨[degradedLeftHand, resolvedLeftHand]⟩).2
      = [" " ++ toString 2 ++ (getHandInfo demoSdk degradedLeftHand).1
          ++ (getHandInfo demoSdk resolvedLeftHand).1 ++ ";"]) ∧
    (written (onFrame demoSdk failingWrite demoListener
        ⟨[degradedRightHand, scenarioBHand]⟩).2
      = [" " ++ toString 2 ++ (getHandInfo demoSdk degradedRightHand).1
          ++ (getHandInfo demoSdk scenarioBHand).1 ++ ";"]) := by
  have hL1 : leftmost [degradedLeftHand, resolvedLeftHand] = degradedLeftHand := by
    norm_num [leftmost, degradedLeftHand, resolvedLeftHand]
  have hR1 : rightmost [degradedLeftHand, resolvedLeftHand] = resolvedLeftHand := by
    norm_num [rightmost, degradedLeftHand, resolvedLeftHand]
  have hL2 : leftmost [degradedRightHand, scenarioBHand] = scenarioBHand := by
    norm_num [leftmost, degradedRightHand, scenarioBHand, zeroVec]
  have hR2 : rightmost [degradedRightHand, scenarioBHand] = degradedRightHand := by
    norm_num [rightmost, degradedRightHand, scenarioBHand, zeroVec]
  have h1 := (onFrame_same_handedness demoSdk failingWrite demoListener
    ⟨[degradedLeftHand, resolvedLeftHand]⟩ (by decide)).1
    ⟨by rw [hL1]; rfl, by rw [hR1]; rfl⟩
  have h2 := (onFrame_same_handedness demoSdk failingWrite demoListener
    ⟨[degradedRightHand, scenarioBHand]⟩ (by decide)).2
    ⟨by rw [hL2]; rfl, by rw [hR2]; rfl⟩
  simp only [hL1, hR1] at h1
  simp only [hL2, hR2] at h2
  exact ⟨h1, h2⟩

/-- C9: On a frame with at least one hand `onFrame` calls `write` exactly once,
with that frame's message `message sdk frame`: its events are diagnostics, the
one write of that message and, when the write reports an error, the error text,
after which the call returns. The listener it returns is the one it was given,
with the frame counter unchanged and the socket as that one call of `write` left
it (so it is the same listener when `write` leaves the socket as it was): the
call neither closes nor reopens the connection. Whatever the outcome of this
call, on the next frame with a hand exactly one write is attempted, of that
next frame's message. -/
theorem onFrame_write_once (sdk : LeapSdk α) (write : σ → String → σ × Option String)
    (self : SampleListener σ) (frame : Frame α) (hne : frame.hands ≠ []) :
    written (onFrame sdk write self frame).2 = [message sdk frame] ∧
    (∃ pre : List Event, written pre = [] ∧
      (onFrame sdk write self frame).2 = pre ++ Event.write (message sdk frame) ::
        (match (write self.socket_ (message sdk frame)).2 with
         | some m => [Event.cout m]
         | none => [])) ∧
    (onFrame sdk write self frame).1
      = { self with socket_ := (write self.socket_ (message sdk frame)).1 } ∧
    ((write self.socket_ (message sdk frame)).1 = self.socket_ →
      (onFrame sdk write self frame).1 = self) ∧
    (∀ next : Frame α, next.hands ≠ [] →
      written (onFrame sdk write (onFrame sdk write self frame).1 next).2
        = [message sdk next]) := by
  obtain ⟨pre, hpre, heq⟩ := onFrame_shape sdk write self frame hne
  refine ⟨written_onFrame sdk write self frame hne, ⟨pre, hpre, ?_⟩, ?_, ?_, ?_⟩
  · rw [heq]
  · rw [heq]
  · intro hsame
    rw [heq]
    simp only [hsame]
  · intro next hnext
    exact written_onFrame sdk write _ next hnext

/-- Scenario E of the specification, obtained from C9: with a transport whose
writes all fail, a frame with one left hand of three fingers has its message
`" 1 1 555 0 0 0 0 0 0 0 0 0;"` written once, the listener is left as it was,
and the next frame, with one right hand of three fingers, has its own message
`" 1 555 0 0 0 0 0 0 0 0 0 0;"` written once. -/
theorem onFrame_write_once_witness :
    (⟨[degradedLeftHand]⟩ : Frame ℚ).hands ≠ [] ∧
    written (onFrame demoSdk failingWrite demoListener ⟨[degradedLeftHand]⟩).2
      = [" 1 1 555 0 0 0 0 0 0 0 0 0;"] ∧
    (onFrame demoSdk failingWrite demoListener ⟨[degradedLeftHand]⟩).1 = demoListener ∧
    written (onFrame demoSdk failingWrite
        (onFrame demoSdk failingWrite demoListener ⟨[degradedLeftHand]⟩).1
        ⟨[degradedRightHand]⟩).2
      = [" 1 555 0 0 0 0 0 0 0 0 0 0;"] := by
  have hne : (⟨[degradedLeftHand]⟩ : Frame ℚ).hands ≠ [] := by simp
  have hthm := onFrame_write_once demoSdk failingWrite demoListener ⟨[degradedLeftHand]⟩ hne
  refine ⟨hne, hthm.1.trans (by decide), hthm.2.2.2.1 rfl, ?_⟩
  exact (hthm.2.2.2.2 ⟨[degradedRightHand]⟩ (by simp)).trans (by decide)

end claims
end LeapMotionMamuLEDs
